import Mathlib

/-!
Verification of the HITL (human-in-the-loop) decision coordinator of the
AgentBridge Enhanced Stock Advisor repository.

The embedding follows `src/agents/hitl_manager.py` (classes `HITLStatus`,
`HITLDecision`, `HITLManager`), `src/agents/hitl_portfolio_optimizer.py`
(the LangGraph routing around the HITL gate) and
`src/agents/portfolio_optimizer_react/agent.py` (`_analyze_inputs`).

Modelling conventions:
  * Python `dict` fields (`pending_decisions`, `resolved_decisions`,
    `agent_hitl_overrides`) become association lists with insertion-order
    semantics: assignment replaces the first binding or appends, `del`
    removes the binding, lookup finds the first binding.
  * `datetime.now()` values are abstract timestamps of type `Nat`, passed
    explicitly to each operation (`now`); `uuid.uuid4()` becomes an
    explicitly passed identifier, constrained to be fresh where the
    reachability relation is defined.
  * File persistence (`_save_data` / `_load_data`) is pure I/O mirroring and
    does not affect the in-memory state machine; it is not modelled.
  * The `callback` attribute of `HITLDecision` is never set by
    `create_decision`, so the callback branches of the Python code are dead
    for coordinator-created decisions and are omitted.
  * Methods that read state without mutating it are translated as functions
    returning a `result × state` pair, whose state component is the
    unchanged receiver, so that purity is a statement, not a convention.
-/

/-- `HITLStatus` enum from `hitl_manager.py`. -/
inductive HITLStatus
  | pending
  | approved
  | rejected
  | timeout
  | bypassed
deriving DecidableEq, Repr

/-- The string value carried by each member of the Python `str` enum. -/
def HITLStatus.value : HITLStatus → String
  | .pending => "pending"
  | .approved => "approved"
  | .rejected => "rejected"
  | .timeout => "timeout"
  | .bypassed => "bypassed"

/-- `HITLDecision` from `hitl_manager.py` (the `callback` field is omitted,
see the module conventions). Timestamps are abstract `Nat` values. -/
structure HITLDecision where
  decision_id : String
  agent_id : String
  decision_type : String
  decision_data : String
  description : String
  created_at : Nat
  status : HITLStatus
  user_id : String
  timeout_seconds : Nat
  resolved_at : Option Nat
  resolution_reason : Option String
  user_comments : Option String
deriving DecidableEq, Repr

/-- The dictionary produced by `HITLDecision.to_dict` (status serialised to
its string value, timestamps kept abstract). -/
structure DecisionDict where
  decision_id : String
  agent_id : String
  decision_type : String
  decision_data : String
  description : String
  created_at : Nat
  status : String
  user_id : String
  timeout_seconds : Nat
  resolved_at : Option Nat
  resolution_reason : Option String
  user_comments : Option String
deriving DecidableEq, Repr

/-- `HITLDecision.to_dict`. -/
def HITLDecision.to_dict (d : HITLDecision) : DecisionDict :=
  { decision_id := d.decision_id
    agent_id := d.agent_id
    decision_type := d.decision_type
    decision_data := d.decision_data
    description := d.description
    created_at := d.created_at
    status := d.status.value
    user_id := d.user_id
    timeout_seconds := d.timeout_seconds
    resolved_at := d.resolved_at
    resolution_reason := d.resolution_reason
    user_comments := d.user_comments }

/-- A history entry: `to_dict()` of the decision at record time plus the
`"timestamp"` key added by `_add_to_history`. -/
structure HistEntry where
  entry : DecisionDict
  timestamp : Nat
deriving DecidableEq, Repr

/-! ### Association lists modelling Python dicts -/

/-- Lookup of the first binding of a key (Python `dict[k]` / `dict.get`). -/
def lookupA {α : Type} : List (String × α) → String → Option α
  | [], _ => none
  | (k', v) :: t, k => if k' = k then some v else lookupA t k

/-- Assignment `dict[k] = v`: replace the first binding of `k`, else append. -/
def insertA {α : Type} : List (String × α) → String → α → List (String × α)
  | [], k, v => [(k, v)]
  | (k', v') :: t, k, v =>
      if k' = k then (k, v) :: t else (k', v') :: insertA t k v

/-- Deletion `del dict[k]`: remove the first binding of `k`. -/
def eraseA {α : Type} : List (String × α) → String → List (String × α)
  | [], _ => []
  | (k', v') :: t, k => if k' = k then t else (k', v') :: eraseA t k

/-- The keys of an association list. -/
def keysA {α : Type} (l : List (String × α)) : List String :=
  l.map Prod.fst

/-! ### The coordinator state (`HITLManager`) -/

/-- In-memory state of `HITLManager`. -/
structure HITLM where
  pending_decisions : List (String × HITLDecision)
  resolved_decisions : List (String × HITLDecision)
  decision_history : List HistEntry
  global_autonomous_mode : Bool
  agent_hitl_overrides : List (String × Bool)
deriving DecidableEq, Repr

/-- Freshly initialised manager (no persisted data on disk). -/
def HITLM.init : HITLM :=
  { pending_decisions := []
    resolved_decisions := []
    decision_history := []
    global_autonomous_mode := false
    agent_hitl_overrides := [] }

/-- `HITLManager.set_global_autonomous_mode`. -/
def HITLM.set_global_autonomous_mode (m : HITLM) (enabled : Bool) : HITLM :=
  { m with global_autonomous_mode := enabled }

/-- `HITLManager.set_agent_hitl_override`. -/
def HITLM.set_agent_hitl_override (m : HITLM) (agent_id : String)
    (override_enabled : Bool) : HITLM :=
  { m with agent_hitl_overrides := insertA m.agent_hitl_overrides agent_id override_enabled }

/-- `HITLManager.is_hitl_required`. -/
def HITLM.is_hitl_required (m : HITLM) (agent_id : String) : Bool :=
  if m.global_autonomous_mode then false
  else (lookupA m.agent_hitl_overrides agent_id).getD false

/-- `HITLManager._add_to_history`: prepend the entry, then truncate to the
first 1000 entries when the cap is exceeded. -/
def addToHistory (history : List HistEntry) (e : HistEntry) : List HistEntry :=
  if (e :: history).length > 1000 then (e :: history).take 1000 else e :: history

/-- `HITLManager.create_decision`. `fresh_id` stands for `uuid.uuid4()` and
`now` for `datetime.now()`. Returns the created decision and the updated
manager. -/
def HITLM.create_decision (m : HITLM) (agent_id decision_type decision_data
    description user_id : String) (timeout_seconds : Nat) (fresh_id : String)
    (now : Nat) : HITLDecision × HITLM :=
  if ¬ m.is_hitl_required agent_id then
    let decision : HITLDecision :=
      { decision_id := fresh_id
        agent_id := agent_id
        decision_type := decision_type
        decision_data := decision_data
        description := description
        created_at := now
        status := .bypassed
        user_id := user_id
        timeout_seconds := timeout_seconds
        resolved_at := some now
        resolution_reason := some "Autonomous mode enabled"
        user_comments := none }
    (decision,
      { m with
        resolved_decisions := insertA m.resolved_decisions fresh_id decision
        decision_history := addToHistory m.decision_history ⟨decision.to_dict, now⟩ })
  else
    let decision : HITLDecision :=
      { decision_id := fresh_id
        agent_id := agent_id
        decision_type := decision_type
        decision_data := decision_data
        description := description
        created_at := now
        status := .pending
        user_id := user_id
        timeout_seconds := timeout_seconds
        resolved_at := none
        resolution_reason := none
        user_comments := none }
    (decision,
      { m with pending_decisions := insertA m.pending_decisions fresh_id decision })

/-- `HITLManager._handle_timeout` after the sleep elapsed: if the decision is
still pending, mark it timed out and move it; otherwise a silent no-op. -/
def HITLM.handle_timeout (m : HITLM) (decision_id : String)
    (timeout_seconds : Nat) (now : Nat) : HITLM :=
  match lookupA m.pending_decisions decision_id with
  | none => m
  | some decision =>
      let decision :=
        { decision with
          status := .timeout
          resolved_at := some now
          resolution_reason :=
            some ("Timed out after " ++ toString timeout_seconds ++ " seconds") }
      { m with
        resolved_decisions := insertA m.resolved_decisions decision_id decision
        pending_decisions := eraseA m.pending_decisions decision_id
        decision_history := addToHistory m.decision_history ⟨decision.to_dict, now⟩ }

/-- `HITLManager.approve_decision`. Returns the boolean result and the
updated manager. -/
def HITLM.approve_decision (m : HITLM) (decision_id : String)
    (user_comments : Option String) (now : Nat) : Bool × HITLM :=
  match lookupA m.pending_decisions decision_id with
  | none => (false, m)
  | some decision =>
      let decision :=
        { decision with
          status := .approved
          resolved_at := some now
          resolution_reason := some "Approved by user"
          user_comments := user_comments }
      (true,
        { m with
          resolved_decisions := insertA m.resolved_decisions decision_id decision
          pending_decisions := eraseA m.pending_decisions decision_id
          decision_history := addToHistory m.decision_history ⟨decision.to_dict, now⟩ })

/-- `HITLManager.reject_decision`. -/
def HITLM.reject_decision (m : HITLM) (decision_id : String)
    (user_comments : Option String) (now : Nat) : Bool × HITLM :=
  match lookupA m.pending_decisions decision_id with
  | none => (false, m)
  | some decision =>
      let decision :=
        { decision with
          status := .rejected
          resolved_at := some now
          resolution_reason := some "Rejected by user"
          user_comments := user_comments }
      (true,
        { m with
          resolved_decisions := insertA m.resolved_decisions decision_id decision
          pending_decisions := eraseA m.pending_decisions decision_id
          decision_history := addToHistory m.decision_history ⟨decision.to_dict, now⟩ })

/-- Python truthiness of an `Optional[str]` argument (`if agent_id:`). -/
def truthyStr : Option String → Bool
  | none => false
  | some s => s ≠ ""

/-- `HITLManager.get_pending_decisions` (read; returns result and receiver). -/
def HITLM.get_pending_decisions (m : HITLM) (agent_id : Option String) :
    List DecisionDict × HITLM :=
  let decisions := m.pending_decisions.map Prod.snd
  let decisions :=
    if truthyStr agent_id then
      decisions.filter (fun d => d.agent_id = agent_id.getD "")
    else decisions
  (decisions.map HITLDecision.to_dict, m)

/-- `HITLManager.get_decision` (read; returns result and receiver). -/
def HITLM.get_decision (m : HITLM) (decision_id : String) :
    Option DecisionDict × HITLM :=
  match lookupA m.pending_decisions decision_id with
  | some d => (some d.to_dict, m)
  | none =>
      match lookupA m.resolved_decisions decision_id with
      | some d => (some d.to_dict, m)
      | none => (none, m)

/-- `HITLManager.get_decision_history` (read; returns result and receiver). -/
def HITLM.get_decision_history (m : HITLM) (agent_id : Option String)
    (limit : Nat) : List HistEntry × HITLM :=
  let history := m.decision_history
  let history :=
    if truthyStr agent_id then
      history.filter (fun h => h.entry.agent_id = agent_id.getD "")
    else history
  (history.take limit, m)

/-! ### The HITL LangGraph workflow (`hitl_portfolio_optimizer.py`) -/

/-- Nodes of the `StateGraph` built by
`HITLPortfolioOptimizerAgent._create_hitl_graph`, plus the `END` sentinel. -/
inductive GraphNode
  | analyze_inputs
  | fetch_market_data
  | reason_about_strategy
  | generate_recommendations
  | optimize_portfolio
  | request_hitl_approval
  | wait_for_hitl_decision
  | process_hitl_decision
  | finalize_portfolio
  | log_decision
  | END
deriving DecidableEq, Repr

/-- The unconditional edges added with `workflow.add_edge` in
`_create_hitl_graph`. -/
def hitlGraphEdge : GraphNode → Option GraphNode
  | .analyze_inputs => some .fetch_market_data
  | .fetch_market_data => some .reason_about_strategy
  | .reason_about_strategy => some .generate_recommendations
  | .generate_recommendations => some .optimize_portfolio
  | .request_hitl_approval => some .wait_for_hitl_decision
  | .process_hitl_decision => some .finalize_portfolio
  | .finalize_portfolio => some .log_decision
  | .log_decision => some .END
  | _ => none

/-- `HITLPortfolioOptimizerAgent._check_hitl_decision`: the routing function
of the conditional edge after `wait_for_hitl_decision`. The `status` argument
is the `hitl_approval_status` string stored in the workflow state (the
enum's string value; `str`-enum equality in Python compares the strings). -/
def check_hitl_decision (hitl_approval_status : String) : String :=
  if hitl_approval_status = HITLStatus.approved.value
      ∨ hitl_approval_status = HITLStatus.bypassed.value then "approved"
  else if hitl_approval_status = HITLStatus.rejected.value then "rejected"
  else "pending"

/-- The conditional-edge map attached to `wait_for_hitl_decision` in
`_create_hitl_graph`: routing key to successor node. -/
def waitForHitlEdges (key : String) : Option GraphNode :=
  if key = "approved" then some .finalize_portfolio
  else if key = "rejected" then some .reason_about_strategy
  else if key = "pending" then some .END
  else none

/-- The node the graph moves to after `wait_for_hitl_decision`, as a function
of the `hitl_approval_status` field of the workflow state. -/
def routeAfterWait (hitl_approval_status : String) : Option GraphNode :=
  waitForHitlEdges (check_hitl_decision hitl_approval_status)

/-! ### Input analysis (`portfolio_optimizer_react/agent.py`) -/

/-- The slice of the base agent's `AgentState` read or written by
`_analyze_inputs`. The Python `budget` is a float compared against integer
thresholds; it is modelled as `Int` (the claims only involve order
comparisons with `1000`). `messages` mirrors the appended `AIMessage`
contents. -/
structure AgentState where
  budget : Int
  timeframe : String
  risk_level : String
  reasoning_trace : List String
  messages : List String
deriving DecidableEq, Repr

/-- `PortfolioOptimizerReActAgent._analyze_inputs`: warns on a budget below
1000 (without changing it), replaces a timeframe outside
{Short, Medium, Long} by "Medium" and a risk level outside
{Low, Medium, High} by "Medium", and records the reasoning. -/
def analyze_inputs (s : AgentState) : AgentState :=
  let reasoning := "ANALYZE: Received optimization request"
  let reasoning :=
    if s.budget < 1000 then
      reasoning ++ " WARNING: Budget below recommended minimum of $1,000"
    else reasoning
  let badTimeframe := s.timeframe ∉ ["Short", "Medium", "Long"]
  let reasoning :=
    if badTimeframe then
      reasoning ++ " WARNING: Invalid timeframe, defaulting to Medium"
    else reasoning
  let timeframe := if badTimeframe then "Medium" else s.timeframe
  let badRisk := s.risk_level ∉ ["Low", "Medium", "High"]
  let reasoning :=
    if badRisk then
      reasoning ++ " WARNING: Invalid risk level, defaulting to Medium"
    else reasoning
  let risk_level := if badRisk then "Medium" else s.risk_level
  let reasoning := reasoning ++ " Input validation complete"
  { s with
    timeframe := timeframe
    risk_level := risk_level
    reasoning_trace := s.reasoning_trace ++ [reasoning]
    messages := s.messages ++ [reasoning] }

/-! ### Association-list lemmas -/

theorem lookupA_insertA {α : Type} (l : List (String × α)) (k q : String) (v : α) :
    lookupA (insertA l k v) q = if k = q then some v else lookupA l q := by
  induction l with
  | nil => simp [insertA, lookupA]
  | cons p t ih =>
    obtain ⟨k1, v1⟩ := p
    by_cases h1 : k1 = k
    · subst h1
      simp only [insertA, if_pos rfl, lookupA]
      by_cases h2 : k1 = q <;> simp [h2, lookupA]
    · simp only [insertA, if_neg h1, lookupA, ih]
      by_cases h2 : k1 = q
      · subst h2
        have : ¬ k = k1 := fun h => h1 h.symm
        simp [this]
      · simp [h2]

theorem lookupA_eq_none_of_not_mem {α : Type} {l : List (String × α)} {k : String}
    (h : k ∉ keysA l) : lookupA l k = none := by
  induction l with
  | nil => rfl
  | cons p t ih =>
    obtain ⟨k1, v1⟩ := p
    have h1 : k1 ≠ k := fun he => h (by simp [keysA, he])
    have h2 : k ∉ keysA t := fun he => h (by simp [keysA] at he ⊢; exact Or.inr he)
    simp only [lookupA, if_neg h1]
    exact ih h2

theorem lookupA_eraseA_ne {α : Type} (l : List (String × α)) {k q : String}
    (h : k ≠ q) : lookupA (eraseA l k) q = lookupA l q := by
  induction l with
  | nil => rfl
  | cons p t ih =>
    obtain ⟨k1, v1⟩ := p
    by_cases h1 : k1 = k
    · subst h1
      rw [eraseA, if_pos rfl, lookupA, if_neg h]
    · rw [eraseA, if_neg h1, lookupA, lookupA, ih]

theorem lookupA_eraseA_self {α : Type} (l : List (String × α)) (k : String)
    (h : (keysA l).Nodup) : lookupA (eraseA l k) k = none := by
  induction l with
  | nil => rfl
  | cons p t ih =>
    obtain ⟨k1, v1⟩ := p
    simp only [keysA, List.map_cons, List.nodup_cons] at h
    by_cases h1 : k1 = k
    · subst h1
      rw [eraseA, if_pos rfl]
      exact lookupA_eq_none_of_not_mem h.1
    · rw [eraseA, if_neg h1, lookupA, if_neg h1]
      exact ih h.2

theorem lookupA_mem {α : Type} {l : List (String × α)} {k : String} {v : α}
    (h : lookupA l k = some v) : (k, v) ∈ l := by
  induction l with
  | nil => simp [lookupA] at h
  | cons p t ih =>
    obtain ⟨k1, v1⟩ := p
    by_cases h1 : k1 = k
    · subst h1
      rw [lookupA, if_pos rfl] at h
      cases h
      exact List.mem_cons_self _ _
    · rw [lookupA, if_neg h1] at h
      exact List.mem_cons_of_mem _ (ih h)

theorem mem_insertA {α : Type} {l : List (String × α)} {k : String} {v : α}
    {p : String × α} (h : p ∈ insertA l k v) : p = (k, v) ∨ p ∈ l := by
  induction l with
  | nil => simpa [insertA] using h
  | cons q t ih =>
    obtain ⟨k1, v1⟩ := q
    by_cases h1 : k1 = k
    · subst h1
      rw [insertA, if_pos rfl] at h
      rcases List.mem_cons.mp h with h | h
      · exact Or.inl h
      · exact Or.inr (List.mem_cons_of_mem _ h)
    · rw [insertA, if_neg h1] at h
      rcases List.mem_cons.mp h with h | h
      · exact Or.inr (by simp [h])
      · rcases ih h with h' | h'
        · exact Or.inl h'
        · exact Or.inr (List.mem_cons_of_mem _ h')

theorem mem_eraseA {α : Type} {l : List (String × α)} {k : String}
    {p : String × α} (h : p ∈ eraseA l k) : p ∈ l := by
  induction l with
  | nil => simp [eraseA] at h
  | cons q t ih =>
    obtain ⟨k1, v1⟩ := q
    by_cases h1 : k1 = k
    · subst h1
      rw [eraseA, if_pos rfl] at h
      exact List.mem_cons_of_mem _ h
    · rw [eraseA, if_neg h1] at h
      rcases List.mem_cons.mp h with h | h
      · simp [h]
      · exact List.mem_cons_of_mem _ (ih h)

theorem mem_keysA_insertA {α : Type} {l : List (String × α)} {k q : String}
    {v : α} (h : q ∈ keysA (insertA l k v)) : q = k ∨ q ∈ keysA l := by
  obtain ⟨p, hp, hq⟩ := List.mem_map.mp h
  rcases mem_insertA hp with h' | h'
  · left
    rw [← hq, h']
  · right
    exact List.mem_map.mpr ⟨p, h', hq⟩

theorem nodup_keysA_insertA {α : Type} {l : List (String × α)} {k : String}
    {v : α} (h : (keysA l).Nodup) : (keysA (insertA l k v)).Nodup := by
  induction l with
  | nil => simp [insertA, keysA]
  | cons p t ih =>
    obtain ⟨k1, v1⟩ := p
    simp only [keysA, List.map_cons, List.nodup_cons] at h
    by_cases h1 : k1 = k
    · subst h1
      rw [insertA, if_pos rfl]
      simp only [keysA, List.map_cons, List.nodup_cons]
      exact ⟨h.1, h.2⟩
    · rw [insertA, if_neg h1]
      simp only [keysA, List.map_cons, List.nodup_cons]
      refine ⟨fun hmem => ?_, ih h.2⟩
      rcases mem_keysA_insertA hmem with h' | h'
      · exact h1 h'
      · exact h.1 h'

theorem nodup_keysA_eraseA {α : Type} {l : List (String × α)} {k : String}
    (h : (keysA l).Nodup) : (keysA (eraseA l k)).Nodup := by
  induction l with
  | nil => simp [eraseA, keysA]
  | cons p t ih =>
    obtain ⟨k1, v1⟩ := p
    simp only [keysA, List.map_cons, List.nodup_cons] at h
    by_cases h1 : k1 = k
    · subst h1
      rw [eraseA, if_pos rfl]
      exact h.2
    · rw [eraseA, if_neg h1]
      simp only [keysA, List.map_cons, List.nodup_cons]
      refine ⟨fun hmem => ?_, ih h.2⟩
      obtain ⟨p, hp, hq⟩ := List.mem_map.mp hmem
      exact h.1 (List.mem_map.mpr ⟨p, mem_eraseA hp, hq⟩)

/-! ### History lemmas -/

theorem addToHistory_length (history : List HistEntry) (e : HistEntry) :
    (addToHistory history e).length ≤ 1000 := by
  unfold addToHistory
  split_ifs with h
  · simp
  · simp only [List.length_cons, gt_iff_lt, not_lt] at h ⊢
    omega

theorem addToHistory_eq_take (history : List HistEntry) (e : HistEntry) :
    addToHistory history e = (e :: history).take 1000 := by
  unfold addToHistory
  split_ifs with h
  · rfl
  · have hle : (e :: history).length ≤ 1000 := by
      simp only [List.length_cons, gt_iff_lt, not_lt] at h
      simpa using h
    exact (List.take_of_length_le hle).symm

/-! ### Equation lemmas for the coordinator operations -/

/-- The decision produced by `approve_decision` from the pending decision. -/
def approvedFrom (d : HITLDecision) (user_comments : Option String)
    (now : Nat) : HITLDecision :=
  { d with
    status := .approved
    resolved_at := some now
    resolution_reason := some "Approved by user"
    user_comments := user_comments }

/-- The decision produced by `reject_decision` from the pending decision. -/
def rejectedFrom (d : HITLDecision) (user_comments : Option String)
    (now : Nat) : HITLDecision :=
  { d with
    status := .rejected
    resolved_at := some now
    resolution_reason := some "Rejected by user"
    user_comments := user_comments }

/-- The decision produced by `_handle_timeout` from the pending decision. -/
def timedOutFrom (d : HITLDecision) (timeout_seconds : Nat)
    (now : Nat) : HITLDecision :=
  { d with
    status := .timeout
    resolved_at := some now
    resolution_reason :=
      some ("Timed out after " ++ toString timeout_seconds ++ " seconds") }

theorem approve_decision_none {m : HITLM} {decision_id : String}
    {user_comments : Option String} {now : Nat}
    (h : lookupA m.pending_decisions decision_id = none) :
    m.approve_decision decision_id user_comments now = (false, m) := by
  unfold HITLM.approve_decision
  rw [h]

theorem approve_decision_some {m : HITLM} {decision_id : String}
    {user_comments : Option String} {now : Nat} {d : HITLDecision}
    (h : lookupA m.pending_decisions decision_id = some d) :
    m.approve_decision decision_id user_comments now =
      (true,
        { m with
          resolved_decisions :=
            insertA m.resolved_decisions decision_id (approvedFrom d user_comments now)
          pending_decisions := eraseA m.pending_decisions decision_id
          decision_history :=
            addToHistory m.decision_history
              ⟨(approvedFrom d user_comments now).to_dict, now⟩ }) := by
  unfold HITLM.approve_decision
  rw [h]
  rfl

theorem reject_decision_none {m : HITLM} {decision_id : String}
    {user_comments : Option String} {now : Nat}
    (h : lookupA m.pending_decisions decision_id = none) :
    m.reject_decision decision_id user_comments now = (false, m) := by
  unfold HITLM.reject_decision
  rw [h]

theorem reject_decision_some {m : HITLM} {decision_id : String}
    {user_comments : Option String} {now : Nat} {d : HITLDecision}
    (h : lookupA m.pending_decisions decision_id = some d) :
    m.reject_decision decision_id user_comments now =
      (true,
        { m with
          resolved_decisions :=
            insertA m.resolved_decisions decision_id (rejectedFrom d user_comments now)
          pending_decisions := eraseA m.pending_decisions decision_id
          decision_history :=
            addToHistory m.decision_history
              ⟨(rejectedFrom d user_comments now).to_dict, now⟩ }) := by
  unfold HITLM.reject_decision
  rw [h]
  rfl

theorem handle_timeout_none {m : HITLM} {decision_id : String}
    {timeout_seconds now : Nat}
    (h : lookupA m.pending_decisions decision_id = none) :
    m.handle_timeout decision_id timeout_seconds now = m := by
  unfold HITLM.handle_timeout
  rw [h]

theorem handle_timeout_some {m : HITLM} {decision_id : String}
    {timeout_seconds now : Nat} {d : HITLDecision}
    (h : lookupA m.pending_decisions decision_id = some d) :
    m.handle_timeout decision_id timeout_seconds now =
      { m with
        resolved_decisions :=
          insertA m.resolved_decisions decision_id (timedOutFrom d timeout_seconds now)
        pending_decisions := eraseA m.pending_decisions decision_id
        decision_history :=
          addToHistory m.decision_history
            ⟨(timedOutFrom d timeout_seconds now).to_dict, now⟩ } := by
  unfold HITLM.handle_timeout
  rw [h]
  rfl

/-- The decision built on the bypass branch of `create_decision`. -/
def bypassedDecision (agent_id decision_type decision_data description
    user_id : String) (timeout_seconds : Nat) (fresh_id : String)
    (now : Nat) : HITLDecision :=
  { decision_id := fresh_id
    agent_id := agent_id
    decision_type := decision_type
    decision_data := decision_data
    description := description
    created_at := now
    status := .bypassed
    user_id := user_id
    timeout_seconds := timeout_seconds
    resolved_at := some now
    resolution_reason := some "Autonomous mode enabled"
    user_comments := none }

/-- The decision built on the pending branch of `create_decision`. -/
def pendingDecision (agent_id decision_type decision_data description
    user_id : String) (timeout_seconds : Nat) (fresh_id : String)
    (now : Nat) : HITLDecision :=
  { decision_id := fresh_id
    agent_id := agent_id
    decision_type := decision_type
    decision_data := decision_data
    description := description
    created_at := now
    status := .pending
    user_id := user_id
    timeout_seconds := timeout_seconds
    resolved_at := none
    resolution_reason := none
    user_comments := none }

theorem create_decision_bypass {m : HITLM} {agent_id decision_type
    decision_data description user_id : String} {timeout_seconds : Nat}
    {fresh_id : String} {now : Nat}
    (h : m.is_hitl_required agent_id = false) :
    m.create_decision agent_id decision_type decision_data description user_id
        timeout_seconds fresh_id now =
      (bypassedDecision agent_id decision_type decision_data description
          user_id timeout_seconds fresh_id now,
        { m with
          resolved_decisions :=
            insertA m.resolved_decisions fresh_id
              (bypassedDecision agent_id decision_type decision_data
                description user_id timeout_seconds fresh_id now)
          decision_history :=
            addToHistory m.decision_history
              ⟨(bypassedDecision agent_id decision_type decision_data
                  description user_id timeout_seconds fresh_id now).to_dict,
                now⟩ }) := by
  unfold HITLM.create_decision
  rw [if_pos]
  · rfl
  · simp [h]

theorem create_decision_pending {m : HITLM} {agent_id decision_type
    decision_data description user_id : String} {timeout_seconds : Nat}
    {fresh_id : String} {now : Nat}
    (h : m.is_hitl_required agent_id = true) :
    m.create_decision agent_id decision_type decision_data description user_id
        timeout_seconds fresh_id now =
      (pendingDecision agent_id decision_type decision_data description
          user_id timeout_seconds fresh_id now,
        { m with
          pending_decisions :=
            insertA m.pending_decisions fresh_id
              (pendingDecision agent_id decision_type decision_data
                description user_id timeout_seconds fresh_id now) }) := by
  unfold HITLM.create_decision
  rw [if_neg]
  · rfl
  · simp [h]

/-! ### The coordinator as a state machine -/

/-- One mutating interaction with the coordinator: a `create_decision` call,
a human resolution call, the firing of a timeout action, or a policy
setter. -/
inductive Op
  | request (agent_id decision_type decision_data description user_id : String)
      (timeout_seconds : Nat) (fresh_id : String) (now : Nat)
  | approve (decision_id : String) (user_comments : Option String) (now : Nat)
  | reject (decision_id : String) (user_comments : Option String) (now : Nat)
  | fireTimeout (decision_id : String) (timeout_seconds : Nat) (now : Nat)
  | setGlobal (enabled : Bool)
  | setOverride (agent_id : String) (override_enabled : Bool)

/-- State reached after executing one operation. -/
def applyOp (m : HITLM) : Op → HITLM
  | .request a ty da de u ts fid now => (m.create_decision a ty da de u ts fid now).2
  | .approve id c now => (m.approve_decision id c now).2
  | .reject id c now => (m.reject_decision id c now).2
  | .fireTimeout id ts now => m.handle_timeout id ts now
  | .setGlobal b => m.set_global_autonomous_mode b
  | .setOverride a b => m.set_agent_hitl_override a b

/-- Side condition of an operation: `uuid.uuid4()` identifiers are fresh. -/
def FreshOk (m : HITLM) : Op → Prop
  | .request _ _ _ _ _ _ fid _ =>
      lookupA m.pending_decisions fid = none ∧
        lookupA m.resolved_decisions fid = none
  | _ => True

/-- Coordinator states reachable from a fresh manager by any sequence of
operations. -/
inductive Reachable : HITLM → Prop
  | init : Reachable HITLM.init
  | step {m : HITLM} {op : Op} : Reachable m → FreshOk m op → Reachable (applyOp m op)

/-- The terminal statuses (everything except PENDING). -/
def TerminalStatus (s : HITLStatus) : Prop :=
  s = .approved ∨ s = .rejected ∨ s = .timeout ∨ s = .bypassed

instance (s : HITLStatus) : Decidable (TerminalStatus s) := by
  unfold TerminalStatus
  infer_instance

/-- The coordinator state invariant: pending decisions are PENDING with no
resolution time, resolved decisions are terminal with a resolution time, the
two indices have disjoint, duplicate-free key sets, and the history respects
its cap. -/
def CoordInv (m : HITLM) : Prop :=
  (keysA m.pending_decisions).Nodup ∧
  (keysA m.resolved_decisions).Nodup ∧
  (∀ p ∈ m.pending_decisions,
    p.2.status = HITLStatus.pending ∧ p.2.resolved_at = none) ∧
  (∀ p ∈ m.resolved_decisions,
    TerminalStatus p.2.status ∧ p.2.resolved_at ≠ none) ∧
  (∀ k, lookupA m.pending_decisions k = none ∨
    lookupA m.resolved_decisions k = none) ∧
  m.decision_history.length ≤ 1000

/-- The decision currently stored under a key, pending index first (the
lookup order of `get_decision`). -/
def getRaw (m : HITLM) (k : String) : Option HITLDecision :=
  match lookupA m.pending_decisions k with
  | some d => some d
  | none => lookupA m.resolved_decisions k

/-- Per-step transition discipline: a stored decision either persists
unchanged or moves from PENDING (with no resolution time) to a resolving
terminal status, acquiring a resolution time. -/
def TransOk (m m' : HITLM) : Prop :=
  ∀ k d d', getRaw m k = some d → getRaw m' k = some d' →
    d' = d ∨
      (d.status = HITLStatus.pending ∧ d.resolved_at = none ∧
        (d'.status = HITLStatus.approved ∨ d'.status = HITLStatus.rejected ∨
          d'.status = HITLStatus.timeout) ∧
        ∃ t, d'.resolved_at = some t)

/-- Per-step creation discipline: a decision that appears is created either
PENDING with no resolution time, or BYPASSED with its resolution time already
set. -/
def NewOk (m m' : HITLM) : Prop :=
  ∀ k d', getRaw m k = none → getRaw m' k = some d' →
    (d'.status = HITLStatus.pending ∧ d'.resolved_at = none) ∨
      (d'.status = HITLStatus.bypassed ∧ ∃ t, d'.resolved_at = some t)

theorem inv_init : CoordInv HITLM.init := by
  refine ⟨?_, ?_, ?_, ?_, ?_, ?_⟩ <;> simp [HITLM.init, keysA, lookupA]

/-- Moving a pending decision to the resolved index with a terminal,
time-stamped replacement preserves the invariant. -/
theorem inv_resolve_move {m : HITLM} (hm : CoordInv m) {decision_id : String}
    {d' : HITLDecision}
    (hterm : TerminalStatus d'.status) (hres : d'.resolved_at ≠ none)
    (e : HistEntry) :
    CoordInv { m with
      resolved_decisions := insertA m.resolved_decisions decision_id d'
      pending_decisions := eraseA m.pending_decisions decision_id
      decision_history := addToHistory m.decision_history e } := by
  obtain ⟨hnp, hnr, hp, hr, hdis, _⟩ := hm
  refine ⟨nodup_keysA_eraseA hnp, nodup_keysA_insertA hnr, ?_, ?_, ?_,
    addToHistory_length _ _⟩
  · intro p hp'
    exact hp p (mem_eraseA hp')
  · intro p hp'
    rcases mem_insertA hp' with h | h
    · rw [h]
      exact ⟨hterm, hres⟩
    · exact hr p h
  · intro k
    by_cases hk : decision_id = k
    · subst hk
      exact Or.inl (lookupA_eraseA_self _ _ hnp)
    · rw [lookupA_eraseA_ne _ hk, lookupA_insertA, if_neg hk]
      exact hdis k

theorem inv_applyOp {m : HITLM} {op : Op} (hm : CoordInv m) (hf : FreshOk m op) :
    CoordInv (applyOp m op) := by
  cases op with
  | request a ty da de u ts fid now =>
    obtain ⟨hfp, hfr⟩ := hf
    obtain ⟨hnp, hnr, hp, hr, hdis, hlen⟩ := hm
    show CoordInv (m.create_decision a ty da de u ts fid now).2
    by_cases hreq : m.is_hitl_required a
    · rw [create_decision_pending hreq]
      refine ⟨nodup_keysA_insertA hnp, hnr, ?_, hr, ?_, hlen⟩
      · intro p hp'
        rcases mem_insertA hp' with h | h
        · rw [h]
          exact ⟨rfl, rfl⟩
        · exact hp p h
      · intro k
        by_cases hk : fid = k
        · subst hk
          exact Or.inr hfr
        · rw [lookupA_insertA, if_neg hk]
          exact hdis k
    · rw [create_decision_bypass (by simpa using hreq)]
      refine ⟨hnp, nodup_keysA_insertA hnr, hp, ?_, ?_, addToHistory_length _ _⟩
      · intro p hp'
        rcases mem_insertA hp' with h | h
        · rw [h]
          exact ⟨Or.inr (Or.inr (Or.inr rfl)), by simp [bypassedDecision]⟩
        · exact hr p h
      · intro k
        by_cases hk : fid = k
        · subst hk
          exact Or.inl hfp
        · rw [lookupA_insertA, if_neg hk]
          exact hdis k
  | approve id c now =>
    show CoordInv (m.approve_decision id c now).2
    cases h : lookupA m.pending_decisions id with
    | none =>
      rw [approve_decision_none h]
      exact hm
    | some d =>
      rw [approve_decision_some h]
      exact inv_resolve_move hm (Or.inl rfl) (by simp [approvedFrom]) _
  | reject id c now =>
    show CoordInv (m.reject_decision id c now).2
    cases h : lookupA m.pending_decisions id with
    | none =>
      rw [reject_decision_none h]
      exact hm
    | some d =>
      rw [reject_decision_some h]
      exact inv_resolve_move hm (Or.inr (Or.inl rfl)) (by simp [rejectedFrom]) _
  | fireTimeout id ts now =>
    show CoordInv (m.handle_timeout id ts now)
    cases h : lookupA m.pending_decisions id with
    | none =>
      rw [handle_timeout_none h]
      exact hm
    | some d =>
      rw [handle_timeout_some h]
      exact inv_resolve_move hm (Or.inr (Or.inr (Or.inl rfl)))
        (by simp [timedOutFrom]) _
  | setGlobal b =>
    obtain ⟨hnp, hnr, hp, hr, hdis, hlen⟩ := hm
    exact ⟨hnp, hnr, hp, hr, hdis, hlen⟩
  | setOverride a b =>
    obtain ⟨hnp, hnr, hp, hr, hdis, hlen⟩ := hm
    exact ⟨hnp, hnr, hp, hr, hdis, hlen⟩

theorem inv_of_reachable {m : HITLM} (h : Reachable m) : CoordInv m := by
  induction h with
  | init => exact inv_init
  | step _ hf ih => exact inv_applyOp ih hf

theorem getRaw_of_pending {m : HITLM} {k : String} {d : HITLDecision}
    (h : lookupA m.pending_decisions k = some d) : getRaw m k = some d := by
  unfold getRaw
  rw [h]

theorem getRaw_of_not_pending {m : HITLM} {k : String}
    (h : lookupA m.pending_decisions k = none) :
    getRaw m k = lookupA m.resolved_decisions k := by
  unfold getRaw
  rw [h]

/-- Two states with the same indices are related by both step disciplines. -/
theorem trans_new_of_eq_indices {m m' : HITLM}
    (hp : m'.pending_decisions = m.pending_decisions)
    (hr : m'.resolved_decisions = m.resolved_decisions) :
    TransOk m m' ∧ NewOk m m' := by
  have hg : ∀ k, getRaw m' k = getRaw m k := by
    intro k
    unfold getRaw
    rw [hp, hr]
  constructor
  · intro k d d' h h'
    rw [hg k, h] at h'
    exact Or.inl (Option.some.inj h').symm
  · intro k d' h h'
    rw [hg k, h] at h'
    exact absurd h' (by simp)

/-- The step disciplines hold for the resolve-and-move pattern shared by
`approve_decision`, `reject_decision` and `_handle_timeout`. -/
theorem trans_new_resolve_move {m : HITLM} (hm : CoordInv m)
    {decision_id : String} {d0 d0' : HITLDecision}
    (h0 : lookupA m.pending_decisions decision_id = some d0)
    (hstat : d0'.status = HITLStatus.approved ∨
      d0'.status = HITLStatus.rejected ∨ d0'.status = HITLStatus.timeout)
    (hres : ∃ t, d0'.resolved_at = some t) (hist : List HistEntry) :
    TransOk m { m with
        resolved_decisions := insertA m.resolved_decisions decision_id d0'
        pending_decisions := eraseA m.pending_decisions decision_id
        decision_history := hist } ∧
    NewOk m { m with
        resolved_decisions := insertA m.resolved_decisions decision_id d0'
        pending_decisions := eraseA m.pending_decisions decision_id
        decision_history := hist } := by
  obtain ⟨hnp, _, hp, _, _, _⟩ := hm
  have hgm : getRaw m decision_id = some d0 := getRaw_of_pending h0
  have hgsame : ∀ k, decision_id ≠ k →
      getRaw { m with
        resolved_decisions := insertA m.resolved_decisions decision_id d0'
        pending_decisions := eraseA m.pending_decisions decision_id
        decision_history := hist } k = getRaw m k := by
    intro k hk
    unfold getRaw
    rw [lookupA_eraseA_ne _ hk, lookupA_insertA, if_neg hk]
  have hgm' : getRaw { m with
      resolved_decisions := insertA m.resolved_decisions decision_id d0'
      pending_decisions := eraseA m.pending_decisions decision_id
      decision_history := hist } decision_id = some d0' := by
    unfold getRaw
    rw [lookupA_eraseA_self _ _ hnp, lookupA_insertA, if_pos rfl]
  constructor
  · intro k d d' h h'
    by_cases hk : decision_id = k
    · subst hk
      rw [hgm] at h
      rw [hgm'] at h'
      obtain ⟨hs, hra⟩ := hp _ (lookupA_mem h0)
      cases h
      cases h'
      exact Or.inr ⟨hs, hra, hstat, hres⟩
    · rw [hgsame k hk, h] at h'
      exact Or.inl (Option.some.inj h').symm
  · intro k d' h h'
    by_cases hk : decision_id = k
    · subst hk
      rw [hgm] at h
      exact absurd h (by simp)
    · rw [hgsame k hk, h] at h'
      exact absurd h' (by simp)

theorem trans_new_applyOp {m : HITLM} {op : Op} (hm : CoordInv m)
    (hf : FreshOk m op) :
    TransOk m (applyOp m op) ∧ NewOk m (applyOp m op) := by
  cases op with
  | request a ty da de u ts fid now =>
    obtain ⟨hfp, hfr⟩ := hf
    have hg0 : getRaw m fid = none := by
      unfold getRaw
      rw [hfp, hfr]
    show TransOk m (m.create_decision a ty da de u ts fid now).2 ∧
      NewOk m (m.create_decision a ty da de u ts fid now).2
    by_cases hreq : m.is_hitl_required a
    · rw [create_decision_pending hreq]
      have hgsame : ∀ k, fid ≠ k →
          getRaw { m with
            pending_decisions := insertA m.pending_decisions fid
              (pendingDecision a ty da de u ts fid now) } k = getRaw m k := by
        intro k hk
        unfold getRaw
        rw [lookupA_insertA, if_neg hk]
      constructor
      · intro k d d' h h'
        by_cases hk : fid = k
        · subst hk
          rw [hg0] at h
          exact absurd h (by simp)
        · rw [hgsame k hk, h] at h'
          exact Or.inl (Option.some.inj h').symm
      · intro k d' h h'
        by_cases hk : fid = k
        · subst hk
          have : getRaw { m with
              pending_decisions := insertA m.pending_decisions fid
                (pendingDecision a ty da de u ts fid now) } fid =
              some (pendingDecision a ty da de u ts fid now) := by
            unfold getRaw
            rw [lookupA_insertA, if_pos rfl]
          rw [this] at h'
          cases h'
          exact Or.inl ⟨rfl, rfl⟩
        · rw [hgsame k hk, h] at h'
          exact absurd h' (by simp)
    · rw [create_decision_bypass (by simpa using hreq)]
      have hgsame : ∀ k, fid ≠ k →
          getRaw { m with
            resolved_decisions := insertA m.resolved_decisions fid
              (bypassedDecision a ty da de u ts fid now)
            decision_history := addToHistory m.decision_history
              ⟨(bypassedDecision a ty da de u ts fid now).to_dict, now⟩ } k =
            getRaw m k := by
        intro k hk
        unfold getRaw
        rw [lookupA_insertA, if_neg hk]
      constructor
      · intro k d d' h h'
        by_cases hk : fid = k
        · subst hk
          rw [hg0] at h
          exact absurd h (by simp)
        · rw [hgsame k hk, h] at h'
          exact Or.inl (Option.some.inj h').symm
      · intro k d' h h'
        by_cases hk : fid = k
        · subst hk
          have : getRaw { m with
              resolved_decisions := insertA m.resolved_decisions fid
                (bypassedDecision a ty da de u ts fid now)
              decision_history := addToHistory m.decision_history
                ⟨(bypassedDecision a ty da de u ts fid now).to_dict, now⟩ } fid =
              some (bypassedDecision a ty da de u ts fid now) := by
            unfold getRaw
            rw [hfp, lookupA_insertA, if_pos rfl]
          rw [this] at h'
          cases h'
          exact Or.inr ⟨rfl, now, rfl⟩
        · rw [hgsame k hk, h] at h'
          exact absurd h' (by simp)
  | approve id c now =>
    show TransOk m (m.approve_decision id c now).2 ∧
      NewOk m (m.approve_decision id c now).2
    cases h : lookupA m.pending_decisions id with
    | none =>
      rw [approve_decision_none h]
      exact trans_new_of_eq_indices rfl rfl
    | some d =>
      rw [approve_decision_some h]
      exact trans_new_resolve_move hm h (Or.inl rfl) ⟨now, rfl⟩ _
  | reject id c now =>
    show TransOk m (m.reject_decision id c now).2 ∧
      NewOk m (m.reject_decision id c now).2
    cases h : lookupA m.pending_decisions id with
    | none =>
      rw [reject_decision_none h]
      exact trans_new_of_eq_indices rfl rfl
    | some d =>
      rw [reject_decision_some h]
      exact trans_new_resolve_move hm h (Or.inr (Or.inl rfl)) ⟨now, rfl⟩ _
  | fireTimeout id ts now =>
    show TransOk m (m.handle_timeout id ts now) ∧
      NewOk m (m.handle_timeout id ts now)
    cases h : lookupA m.pending_decisions id with
    | none =>
      rw [handle_timeout_none h]
      exact trans_new_of_eq_indices rfl rfl
    | some d =>
      rw [handle_timeout_some h]
      exact trans_new_resolve_move hm h (Or.inr (Or.inr rfl)) ⟨now, rfl⟩ _
  | setGlobal b =>
    exact trans_new_of_eq_indices rfl rfl
  | setOverride a b =>
    exact trans_new_of_eq_indices rfl rfl

/-! ### Concrete fixtures used by the witnesses -/

/-- A concrete pending decision. -/
def dPend : HITLDecision :=
  { decision_id := "d1"
    agent_id := "portfolio"
    decision_type := "allocation"
    decision_data := "payload"
    description := "demo"
    created_at := 0
    status := .pending
    user_id := "u"
    timeout_seconds := 300
    resolved_at := none
    resolution_reason := none
    user_comments := none }

/-- A concrete manager holding exactly one pending decision. -/
def mPend : HITLM :=
  { pending_decisions := [("d1", dPend)]
    resolved_decisions := []
    decision_history := []
    global_autonomous_mode := false
    agent_hitl_overrides := [("portfolio", true)] }

/-- A concrete manager in global autonomous mode. -/
def mAuto : HITLM :=
  HITLM.init.set_global_autonomous_mode true

/-! ### Claim theorems -/

/-- C1: while the global autonomous flag is true, `create_decision` returns a
decision with status BYPASSED whose `resolved_at` is set at creation time;
the decision is stored in the resolved index and added to the history, and
the pending index is untouched. -/
theorem c1_global_autonomous_bypasses
    (m : HITLM) (agent_id decision_type decision_data description
      user_id : String) (timeout_seconds : Nat) (fresh_id : String) (now : Nat)
    (hauto : m.global_autonomous_mode = true) :
    (m.create_decision agent_id decision_type decision_data description
        user_id timeout_seconds fresh_id now).1.status = HITLStatus.bypassed ∧
    (m.create_decision agent_id decision_type decision_data description
        user_id timeout_seconds fresh_id now).1.resolved_at = some now ∧
    lookupA (m.create_decision agent_id decision_type decision_data description
        user_id timeout_seconds fresh_id now).2.resolved_decisions fresh_id =
      some (m.create_decision agent_id decision_type decision_data description
        user_id timeout_seconds fresh_id now).1 ∧
    (m.create_decision agent_id decision_type decision_data description
        user_id timeout_seconds fresh_id now).2.decision_history =
      addToHistory m.decision_history
        ⟨(m.create_decision agent_id decision_type decision_data description
            user_id timeout_seconds fresh_id now).1.to_dict, now⟩ ∧
    (m.create_decision agent_id decision_type decision_data description
        user_id timeout_seconds fresh_id now).2.pending_decisions =
      m.pending_decisions := by
  have hreq : m.is_hitl_required agent_id = false := by
    unfold HITLM.is_hitl_required
    rw [hauto]
    rfl
  rw [create_decision_bypass hreq]
  refine ⟨rfl, rfl, ?_, rfl, rfl⟩
  rw [lookupA_insertA, if_pos rfl]

/-- Witness for C1 at a concrete autonomous manager. -/
theorem c1_global_autonomous_bypasses_witness :
    mAuto.global_autonomous_mode = true ∧
    ((mAuto.create_decision "portfolio" "allocation" "payload" "demo" "u" 300 "id-1"
        7).1.status = HITLStatus.bypassed ∧
      (mAuto.create_decision "portfolio" "allocation" "payload" "demo" "u" 300 "id-1"
        7).1.resolved_at = some 7 ∧
      lookupA (mAuto.create_decision "portfolio" "allocation" "payload" "demo" "u" 300
        "id-1" 7).2.resolved_decisions "id-1" =
        some (mAuto.create_decision "portfolio" "allocation" "payload" "demo" "u" 300
          "id-1" 7).1 ∧
      (mAuto.create_decision "portfolio" "allocation" "payload" "demo" "u" 300 "id-1"
        7).2.decision_history =
        addToHistory mAuto.decision_history
          ⟨(mAuto.create_decision "portfolio" "allocation" "payload" "demo" "u" 300
              "id-1" 7).1.to_dict, 7⟩ ∧
      (mAuto.create_decision "portfolio" "allocation" "payload" "demo" "u" 300 "id-1"
        7).2.pending_decisions = mAuto.pending_decisions) :=
  ⟨rfl, c1_global_autonomous_bypasses mAuto "portfolio" "allocation" "payload" "demo"
    "u" 300 "id-1" 7 rfl⟩

/-- C2: `approve_decision` (resp. `reject_decision`) on a pending id returns
true, setting the decision's status and `resolved_at`; on an unknown or
already-resolved id it returns false and changes nothing; of an
approve-then-reject (or reject-then-approve) pair on one pending id, only
the first call returns true and mutates. -/
theorem c2_approve_reject_first_wins
    (m : HITLM) (id : String) (c c2 : Option String) (t1 t2 : Nat)
    (hn : (keysA m.pending_decisions).Nodup) :
    (∀ d, lookupA m.pending_decisions id = some d →
      (m.approve_decision id c t1).1 = true ∧
      lookupA (m.approve_decision id c t1).2.resolved_decisions id =
        some (approvedFrom d c t1) ∧
      (approvedFrom d c t1).status = HITLStatus.approved ∧
      (approvedFrom d c t1).resolved_at = some t1 ∧
      lookupA (m.approve_decision id c t1).2.pending_decisions id = none ∧
      (m.approve_decision id c t1).2.reject_decision id c2 t2 =
        (false, (m.approve_decision id c t1).2) ∧
      (m.reject_decision id c t1).1 = true ∧
      lookupA (m.reject_decision id c t1).2.resolved_decisions id =
        some (rejectedFrom d c t1) ∧
      (rejectedFrom d c t1).status = HITLStatus.rejected ∧
      (rejectedFrom d c t1).resolved_at = some t1 ∧
      lookupA (m.reject_decision id c t1).2.pending_decisions id = none ∧
      (m.reject_decision id c t1).2.approve_decision id c2 t2 =
        (false, (m.reject_decision id c t1).2)) ∧
    (lookupA m.pending_decisions id = none →
      m.approve_decision id c t1 = (false, m) ∧
      m.reject_decision id c t1 = (false, m)) := by
  constructor
  · intro d hd
    have hea : lookupA (eraseA m.pending_decisions id) id = none :=
      lookupA_eraseA_self _ _ hn
    refine ⟨?_, ?_, rfl, rfl, ?_, ?_, ?_, ?_, rfl, rfl, ?_, ?_⟩
    · rw [approve_decision_some hd]
    · rw [approve_decision_some hd]
      exact (lookupA_insertA _ _ _ _).trans (if_pos rfl)
    · rw [approve_decision_some hd]
      exact hea
    · rw [approve_decision_some hd]
      exact reject_decision_none hea
    · rw [reject_decision_some hd]
    · rw [reject_decision_some hd]
      exact (lookupA_insertA _ _ _ _).trans (if_pos rfl)
    · rw [reject_decision_some hd]
      exact hea
    · rw [reject_decision_some hd]
      exact approve_decision_none hea
  · intro hd
    exact ⟨approve_decision_none hd, reject_decision_none hd⟩

/-- Witness for C2 at a concrete manager with one pending decision. -/
theorem c2_approve_reject_first_wins_witness :
    (keysA mPend.pending_decisions).Nodup ∧
    lookupA mPend.pending_decisions "d1" = some dPend ∧
    ((mPend.approve_decision "d1" none 5).1 = true ∧
      lookupA (mPend.approve_decision "d1" none 5).2.pending_decisions "d1" =
        none ∧
      (mPend.approve_decision "d1" none 5).2.reject_decision "d1" none 6 =
        (false, (mPend.approve_decision "d1" none 5).2)) ∧
    lookupA mPend.pending_decisions "zzz" = none ∧
    mPend.approve_decision "zzz" none 5 = (false, mPend) := by
  have h := c2_approve_reject_first_wins mPend "d1" none none 5 6 (by decide)
  have h1 := h.1 dPend rfl
  have h2 := (c2_approve_reject_first_wins mPend "zzz" none none 5 6
    (by decide)).2 rfl
  exact ⟨by decide, rfl, ⟨h1.1, h1.2.2.2.2.1, h1.2.2.2.2.2.1⟩, rfl, h2.1⟩

/-- C3: the timeout action is a silent no-op on a decision that is no longer
pending — in particular, after a successful `approve_decision` the decision
stays APPROVED with the approval's `resolved_at` even when the timer later
fires — while a decision still pending when the timeout fires is moved from
the pending index to the resolved index with status TIMEOUT and `resolved_at`
set. -/
theorem c3_resolution_beats_timeout
    (m : HITLM) (id : String) (c : Option String) (t1 t2 ts : Nat)
    (hn : (keysA m.pending_decisions).Nodup) :
    (lookupA m.pending_decisions id = none →
      m.handle_timeout id ts t2 = m) ∧
    (∀ d, lookupA m.pending_decisions id = some d →
      ((m.approve_decision id c t1).2.handle_timeout id ts t2 =
        (m.approve_decision id c t1).2 ∧
      lookupA ((m.approve_decision id c t1).2.handle_timeout id ts
          t2).resolved_decisions id = some (approvedFrom d c t1) ∧
      (approvedFrom d c t1).status = HITLStatus.approved ∧
      (approvedFrom d c t1).resolved_at = some t1) ∧
      (lookupA (m.handle_timeout id ts t2).pending_decisions id = none ∧
      lookupA (m.handle_timeout id ts t2).resolved_decisions id =
        some (timedOutFrom d ts t2) ∧
      (timedOutFrom d ts t2).status = HITLStatus.timeout ∧
      (timedOutFrom d ts t2).resolved_at = some t2)) := by
  constructor
  · intro hd
    exact handle_timeout_none hd
  · intro d hd
    have hea : lookupA (eraseA m.pending_decisions id) id = none :=
      lookupA_eraseA_self _ _ hn
    have hnoop : (m.approve_decision id c t1).2.handle_timeout id ts t2 =
        (m.approve_decision id c t1).2 := by
      rw [approve_decision_some hd]
      exact handle_timeout_none hea
    refine ⟨⟨hnoop, ?_, rfl, rfl⟩, ?_, ?_, rfl, rfl⟩
    · rw [hnoop, approve_decision_some hd]
      exact (lookupA_insertA _ _ _ _).trans (if_pos rfl)
    · rw [handle_timeout_some hd]
      exact hea
    · rw [handle_timeout_some hd]
      exact (lookupA_insertA _ _ _ _).trans (if_pos rfl)

/-- Witness for C3 at a concrete manager with one pending decision. -/
theorem c3_resolution_beats_timeout_witness :
    (keysA mPend.pending_decisions).Nodup ∧
    lookupA mPend.pending_decisions "d1" = some dPend ∧
    ((mPend.approve_decision "d1" none 5).2.handle_timeout "d1" 300 9 =
      (mPend.approve_decision "d1" none 5).2 ∧
    lookupA ((mPend.approve_decision "d1" none 5).2.handle_timeout "d1" 300
        9).resolved_decisions "d1" = some (approvedFrom dPend none 5) ∧
    lookupA (mPend.handle_timeout "d1" 300 9).resolved_decisions "d1" =
      some (timedOutFrom dPend 300 9)) := by
  have h := (c3_resolution_beats_timeout mPend "d1" none 5 9 300
    (by decide)).2 dPend rfl
  exact ⟨by decide, rfl, h.1.1, h.1.2.1, h.2.2.1⟩

/-- C4: from an empty coordinator, after any sequence of operations every
pending decision is PENDING with no `resolved_at`, every resolved decision
has a terminal status and a `resolved_at`, no id is in both indices, and
each step either leaves a stored decision unchanged or moves it from
PENDING (with `resolved_at` set exactly there) to APPROVED, REJECTED or
TIMEOUT, with BYPASSED arising only at creation. -/
theorem c4_coordinator_invariant :
    (∀ m : HITLM, Reachable m → CoordInv m) ∧
    (∀ (m : HITLM) (op : Op), Reachable m → FreshOk m op →
      TransOk m (applyOp m op) ∧ NewOk m (applyOp m op)) :=
  ⟨fun _ h => inv_of_reachable h,
    fun _ _ h hf => trans_new_applyOp (inv_of_reachable h) hf⟩

/-- Witness for C4 at the initial state and a concrete operation. -/
theorem c4_coordinator_invariant_witness :
    CoordInv HITLM.init ∧
    (TransOk HITLM.init (applyOp HITLM.init (Op.setGlobal true)) ∧
      NewOk HITLM.init (applyOp HITLM.init (Op.setGlobal true))) :=
  ⟨c4_coordinator_invariant.1 HITLM.init Reachable.init,
    c4_coordinator_invariant.2 HITLM.init (Op.setGlobal true) Reachable.init
      trivial⟩

/-- C5: at the conditional edge after `wait_for_hitl_decision`, an APPROVED
or BYPASSED decision status routes to `finalize_portfolio`, REJECTED routes
back to `reason_about_strategy`, and PENDING routes to END, handing the
current workflow state back to the caller. -/
theorem c5_hitl_gate_routing :
    routeAfterWait HITLStatus.approved.value = some GraphNode.finalize_portfolio ∧
    routeAfterWait HITLStatus.bypassed.value = some GraphNode.finalize_portfolio ∧
    routeAfterWait HITLStatus.rejected.value = some GraphNode.reason_about_strategy ∧
    routeAfterWait HITLStatus.pending.value = some GraphNode.END := by
  decide

/-- C6 counterexample: on the bypass path the code sets the resolution
reason to "Autonomous mode enabled" (capital A), not the claimed
"autonomous mode enabled". -/
theorem c6_resolution_note_counterexample :
    HITLM.init.is_hitl_required "portfolio" = false ∧
    (HITLM.init.create_decision "portfolio" "allocation" "payload" "demo" "u" 300
        "id-1" 0).1.resolution_reason = some "Autonomous mode enabled" ∧
    (HITLM.init.create_decision "portfolio" "allocation" "payload" "demo" "u" 300
        "id-1" 0).1.resolution_reason ≠ some "autonomous mode enabled" := by
  decide

/-- C6 amended: every decision created on the bypass path carries the
resolution reason "Autonomous mode enabled". -/
theorem c6_resolution_note_amended
    (m : HITLM) (agent_id decision_type decision_data description
      user_id : String) (timeout_seconds : Nat) (fresh_id : String) (now : Nat)
    (h : m.is_hitl_required agent_id = false) :
    (m.create_decision agent_id decision_type decision_data description
        user_id timeout_seconds fresh_id now).1.resolution_reason =
      some "Autonomous mode enabled" := by
  rw [create_decision_bypass h]
  rfl

/-- Witness for the amended C6 at a concrete manager. -/
theorem c6_resolution_note_amended_witness :
    HITLM.init.is_hitl_required "portfolio" = false ∧
    (HITLM.init.create_decision "portfolio" "allocation" "payload" "demo" "u" 300
        "id-2" 3).1.resolution_reason = some "Autonomous mode enabled" :=
  ⟨rfl, c6_resolution_note_amended HITLM.init "portfolio" "allocation" "payload"
    "demo" "u" 300 "id-2" 3 rfl⟩

/-- C7: the history of any reachable coordinator state holds at most 1000
entries, and `_add_to_history` keeps the newly added entry at the front and
drops any excess from the back of the newest-first list, i.e. the oldest
entries. -/
theorem c7_history_cap :
    (∀ m : HITLM, Reachable m → m.decision_history.length ≤ 1000) ∧
    (∀ (history : List HistEntry) (e : HistEntry),
      addToHistory history e = (e :: history).take 1000 ∧
      (addToHistory history e).length ≤ 1000 ∧
      (addToHistory history e).head? = some e ∧
      e :: history = addToHistory history e ++ (e :: history).drop 1000) := by
  constructor
  · intro m h
    exact (inv_of_reachable h).2.2.2.2.2
  · intro history e
    have htake := addToHistory_eq_take history e
    refine ⟨htake, addToHistory_length _ _, ?_, ?_⟩
    · rw [htake, show (1000 : Nat) = 999 + 1 from rfl, List.take_succ_cons]
      rfl
    · rw [htake, List.take_append_drop]

/-- Witness for C7 at the initial state and a concrete history entry. -/
theorem c7_history_cap_witness :
    HITLM.init.decision_history.length ≤ 1000 ∧
    addToHistory [] ⟨dPend.to_dict, 1⟩ =
      ([⟨dPend.to_dict, 1⟩] : List HistEntry).take 1000 ∧
    (addToHistory [] ⟨dPend.to_dict, 1⟩).head? = some ⟨dPend.to_dict, 1⟩ :=
  ⟨c7_history_cap.1 HITLM.init Reachable.init,
    (c7_history_cap.2 [] ⟨dPend.to_dict, 1⟩).1,
    (c7_history_cap.2 [] ⟨dPend.to_dict, 1⟩).2.2.1⟩

/-- C8: `get_decision`, `get_pending_decisions` and `get_decision_history`
leave the coordinator state unchanged, and repeated `get_decision` calls
with no interleaved mutation return identical snapshots. -/
theorem c8_reads_are_pure (m : HITLM) (id : String) (agent_id : Option String)
    (limit : Nat) :
    (m.get_decision id).2 = m ∧
    (m.get_pending_decisions agent_id).2 = m ∧
    (m.get_decision_history agent_id limit).2 = m ∧
    ((m.get_decision id).2.get_decision id).1 = (m.get_decision id).1 ∧
    ((m.get_decision id).2.get_pending_decisions agent_id).1 =
      (m.get_pending_decisions agent_id).1 ∧
    ((m.get_decision id).2.get_decision_history agent_id limit).1 =
      (m.get_decision_history agent_id limit).1 := by
  have hgd : (m.get_decision id).2 = m := by
    unfold HITLM.get_decision
    cases lookupA m.pending_decisions id with
    | some d => rfl
    | none =>
      cases lookupA m.resolved_decisions id with
      | some d => rfl
      | none => rfl
  refine ⟨hgd, rfl, rfl, ?_, ?_, ?_⟩ <;> rw [hgd]

/-- C9 counterexample: a budget of 500 (below the 1000 minimum) passes
through `_analyze_inputs` unchanged — the code only records a warning, it
never clamps the budget. -/
theorem c9_no_budget_clamp_counterexample :
    (500 : Int) < 1000 ∧
    (analyze_inputs
        { budget := 500, timeframe := "Medium", risk_level := "Medium",
          reasoning_trace := [], messages := [] }).budget = 500 ∧
    ¬ (1000 ≤ (analyze_inputs
        { budget := 500, timeframe := "Medium", risk_level := "Medium",
          reasoning_trace := [], messages := [] }).budget) := by
  refine ⟨by decide, rfl, ?_⟩
  intro h
  have : (analyze_inputs
      { budget := 500, timeframe := "Medium", risk_level := "Medium",
        reasoning_trace := [], messages := [] }).budget = 500 := rfl
  rw [this] at h
  exact absurd h (by decide)

/-- C9 amended: `_analyze_inputs` replaces a timeframe outside
{Short, Medium, Long} by "Medium" and a risk level outside
{Low, Medium, High} by "Medium", leaves a valid value and the budget (even
one below the 1000 minimum) unchanged, and the workflow proceeds
unconditionally from `analyze_inputs` to `fetch_market_data`. -/
theorem c9_input_analysis_amended (s : AgentState) :
    (analyze_inputs s).timeframe =
      (if s.timeframe ∈ ["Short", "Medium", "Long"] then s.timeframe
        else "Medium") ∧
    (analyze_inputs s).risk_level =
      (if s.risk_level ∈ ["Low", "Medium", "High"] then s.risk_level
        else "Medium") ∧
    (analyze_inputs s).budget = s.budget ∧
    hitlGraphEdge GraphNode.analyze_inputs = some GraphNode.fetch_market_data := by
  refine ⟨?_, ?_, rfl, rfl⟩
  · unfold analyze_inputs
    by_cases h : s.timeframe ∈ ["Short", "Medium", "Long"] <;> simp [h]
  · unfold analyze_inputs
    by_cases h : s.risk_level ∈ ["Low", "Medium", "High"] <;> simp [h]

/-- C10: an agent with no entry in the override map gets
`is_hitl_required = false` even while the global autonomous flag is false,
so its `create_decision` calls return an immediately BYPASSED decision:
human gating is opt-in per agent. -/
theorem c10_hitl_opt_in_per_agent
    (m : HITLM) (agent_id decision_type decision_data description
      user_id : String) (timeout_seconds : Nat) (fresh_id : String) (now : Nat)
    (hglobal : m.global_autonomous_mode = false)
    (hov : lookupA m.agent_hitl_overrides agent_id = none) :
    m.is_hitl_required agent_id = false ∧
    (m.create_decision agent_id decision_type decision_data description
        user_id timeout_seconds fresh_id now).1.status = HITLStatus.bypassed ∧
    (m.create_decision agent_id decision_type decision_data description
        user_id timeout_seconds fresh_id now).1.resolved_at = some now := by
  have hreq : m.is_hitl_required agent_id = false := by
    unfold HITLM.is_hitl_required
    rw [hglobal, hov]
    rfl
  rw [create_decision_bypass hreq]
  exact ⟨hreq, rfl, rfl⟩

/-- Witness for C10 at the initial manager, which has no overrides and the
global flag off. -/
theorem c10_hitl_opt_in_per_agent_witness :
    HITLM.init.global_autonomous_mode = false ∧
    lookupA HITLM.init.agent_hitl_overrides "some_agent" = none ∧
    (HITLM.init.is_hitl_required "some_agent" = false ∧
      (HITLM.init.create_decision "some_agent" "t" "payload" "demo" "u" 300 "id-3"
        4).1.status = HITLStatus.bypassed ∧
      (HITLM.init.create_decision "some_agent" "t" "payload" "demo" "u" 300 "id-3"
        4).1.resolved_at = some 4) :=
  ⟨rfl, rfl, c10_hitl_opt_in_per_agent HITLM.init "some_agent" "t" "payload" "demo"
    "u" 300 "id-3" 4 rfl rfl⟩
